import Mathlib

/-!
# Verification of the Web Pilot command-dispatch loop

A shallow embedding of the command-dispatch core of `src/pilot.js`
(class `WebPilot`: the methods `pollCommands`, `executeCommand`,
`clickElement`, `scroll`, and the members they touch), together with
proofs of the specified properties of the poll loop and the dispatcher.

JavaScript strings are modelled as `List Char`; the Playwright browser
(an external capability) is modelled as an oracle assigning to every
browser action an `Except`-valued outcome (a thrown error message or a
returned value).  `process.exit(0)` is modelled as a distinguished
`Outcome`.  The mutable fields of the `WebPilot` object that the loop
and dispatcher touch (`running`, `lastCommand`, `browser`/`context`
being non-null) form the `Session` record; the awaited external calls
performed by a dispatch are accumulated in `Session.calls` so that
frame conditions ("no browser action was performed", "the resource was
released exactly once") are statable.
-/

namespace WebPilot

/-- JS strings are modelled as lists of characters. -/
abbrev Str := List Char

/-- The characters stripped by JS `String.prototype.trim` (the common
ECMAScript whitespace code points). -/
def isWsChar (c : Char) : Bool :=
  c = ' ' ∨ c = '\t' ∨ c = '\n' ∨ c = '\r' ∨ c = '\x0b' ∨ c = '\x0c' ∨
  c = ' ' ∨ c = '﻿'

/-- JS `String.prototype.trim`: strip whitespace from both ends. -/
def trim (s : Str) : Str :=
  ((s.dropWhile isWsChar).reverse.dropWhile isWsChar).reverse

/-- ASCII lower-casing of one character (the commands use ASCII tags, so
this models `String.prototype.toLowerCase` on them). -/
def lowerChar (c : Char) : Char :=
  if 'A' ≤ c ∧ c ≤ 'Z' then Char.ofNat (c.toNat + 32) else c

/-- JS `String.prototype.toLowerCase` on ASCII command text. -/
def toLower (s : Str) : Str := s.map lowerChar

/-- JS `String.prototype.split(':')`: the colon-separated pieces of a
string (never the empty list). -/
def splitColon : Str → List Str
  | [] => [[]]
  | c :: rest =>
    let r := splitColon rest
    if c = ':' then [] :: r
    else (c :: r.headD []) :: r.tail

/-- JS `Array.prototype.join(':')` on a list of strings. -/
def joinColon : List Str → Str
  | [] => []
  | [x] => x
  | x :: y :: xs => x ++ ':' :: joinColon (y :: xs)

/-- Decimal digit value of a character, if any. -/
def decVal (c : Char) : Option Nat :=
  if '0' ≤ c ∧ c ≤ '9' then some (c.toNat - 48) else none

/-- Hexadecimal digit value of a character, if any. -/
def hexVal (c : Char) : Option Nat :=
  if '0' ≤ c ∧ c ≤ '9' then some (c.toNat - 48)
  else if 'a' ≤ c ∧ c ≤ 'f' then some (c.toNat - 87)
  else if 'A' ≤ c ∧ c ≤ 'F' then some (c.toNat - 55)
  else none

/-- Accumulate the longest leading run of digits; `none` when no digit
was consumed (JS `parseInt` then yields `NaN`). -/
def parseDigits (val : Char → Option Nat) (base : Nat) : Str → Option Nat → Option Nat
  | [], acc => acc
  | c :: rest, acc =>
    match val c with
    | some d => parseDigits val base rest (some ((acc.getD 0) * base + d))
    | none => acc

/-- JS `parseInt(s)` with no radix argument: skip leading whitespace, an
optional sign, a `0x`/`0X` prefix selects base 16, then the longest run
of digits; `none` models the `NaN` outcome. -/
def jsParseInt (s : Str) : Option Int :=
  let t := s.dropWhile isWsChar
  let signed : Bool × Str :=
    match t with
    | '-' :: r => (true, r)
    | '+' :: r => (false, r)
    | r => (false, r)
  let mag : Option Nat :=
    match signed.2 with
    | '0' :: 'x' :: r => parseDigits hexVal 16 r none
    | '0' :: 'X' :: r => parseDigits hexVal 16 r none
    | r => parseDigits decVal 10 r none
  match mag with
  | none => none
  | some m => some (if signed.1 then -(m : Int) else (m : Int))

/-- Render a natural number in decimal (fuel-driven so that it reduces
in the kernel). -/
def natToStrGo : Nat → Nat → Str
  | 0, _ => []
  | fuel + 1, n =>
    if n < 10 then [Char.ofNat (48 + n)]
    else natToStrGo fuel (n / 10) ++ [Char.ofNat (48 + n % 10)]

/-- JS template interpolation `${n}` of an integer. -/
def intToStr (n : Int) : Str :=
  if n < 0 then '-' :: natToStrGo (n.natAbs + 1) n.natAbs
  else natToStrGo (n.toNat + 1) n.toNat

/-- One awaited external call performed during a dispatch (a Playwright
invocation, a resource close, or the `sleep` timer of `wait:`). -/
inductive Call
  | screenshotC
  | textC
  | htmlC
  | titleC
  | tablesC
  | linksC
  | backC
  | forwardC
  | reloadC
  | gotoC (url : Str)
  | clickCssC (sel : Str)
  | clickTextC (sel : Str)
  | loadStateC
  | fillC (sel : Str) (txt : Str)
  | scrollC (dir : Str)
  | sleepC (ms : Int)
  | closeBrowserC
  | closeContextC
deriving DecidableEq

/-- The mutable state of the `WebPilot` object that the poll loop and
dispatcher touch: `this.running`, `this.lastCommand`, whether
`this.browser` / `this.context` are non-null, plus the trace of awaited
external calls made so far (for frame conditions). -/
structure Session where
  running : Bool
  lastCommand : Str
  hasBrowser : Bool
  hasContext : Bool
  calls : List Call
deriving DecidableEq

/-- The external browser capability: for every awaited action, either
the thrown error message or the returned value.  Page URLs observed
after navigations are oracle data as well. -/
structure BrowserOracle where
  /-- outcome of `this.takeScreenshot()` (path message or thrown error) -/
  screenshotSave : Except Str Str
  /-- outcome of `this.extractText()` -/
  textExtract : Except Str Str
  /-- outcome of `this.saveHtml()` -/
  htmlSave : Except Str Str
  /-- `this.page.url()` (synchronous, does not throw) -/
  pageUrl : Str
  /-- outcome of `await this.page.title()` -/
  pageTitle : Except Str Str
  /-- outcome of `this.extractTables()` -/
  tablesExtract : Except Str Str
  /-- outcome of `this.extractLinks()` -/
  linksExtract : Except Str Str
  /-- outcome of `await this.page.goBack()` -/
  backNav : Except Str Unit
  /-- `this.page.url()` after going back -/
  backUrl : Str
  /-- outcome of `await this.page.goForward()` -/
  forwardNav : Except Str Unit
  /-- `this.page.url()` after going forward -/
  forwardUrl : Str
  /-- outcome of `await this.page.reload()` -/
  reloadNav : Except Str Unit
  /-- `this.page.url()` after reloading -/
  reloadUrl : Str
  /-- outcome of `await this.browser.close()` -/
  browserClose : Except Str Unit
  /-- outcome of `await this.context.close()` -/
  contextClose : Except Str Unit
  /-- outcome of `await this.page.goto(url, ...)` -/
  gotoNav : Str → Except Str Unit
  /-- `this.page.url()` after navigating to the given url -/
  gotoUrlAfter : Str → Str
  /-- outcome of `await this.page.click(selector, ...)` -/
  cssClick : Str → Except Str Unit
  /-- outcome of the retry `await this.page.click('text=' + selector, ...)` -/
  textClick : Str → Except Str Unit
  /-- outcome of `await this.page.waitForLoadState(...)` -/
  loadStateWait : Except Str Unit
  /-- outcome of `await this.page.fill(selector, text)` -/
  fillInput : Str → Str → Except Str Unit
  /-- outcome of the `window.scroll...` page evaluation for a direction -/
  scrollEval : Str → Except Str Unit

/-- What a dispatch produces: a result string handed back to the poll
loop, or a `process.exit(code)` that never returns. -/
inductive Outcome
  | result (s : Str)
  | exited (code : Nat)
deriving DecidableEq

deriving instance DecidableEq for Except

/-- Perform one awaited external call: record it in the call trace and
either return its value or propagate its thrown message (paired with
the session as mutated so far). -/
def act {α : Type} (st : Session) (c : Call) (r : Except Str α) :
    Except (Str × Session) (α × Session) :=
  let st' := { st with calls := st.calls ++ [c] }
  match r with
  | Except.ok a => Except.ok (a, st')
  | Except.error m => Except.error (m, st')

/-- One branch of `executeCommand`: await a single external call and
wrap its returned value as the branch's outcome; a thrown failure
propagates to the surrounding `catch`. -/
def simpleAct {α : Type} (st : Session) (c : Call) (x : Except Str α)
    (f : α → Outcome) : Except (Str × Session) (Outcome × Session) :=
  match act st c x with
  | Except.error e => Except.error e
  | Except.ok (a, st1) => Except.ok (f a, st1)

/-- `clickElement(selector)` of `src/pilot.js`: try the argument as a
CSS selector; on a thrown failure retry it as `text=` content; then
await the load state and report the click. -/
def clickElement (o : BrowserOracle) (st : Session) (selector : Str) :
    Except (Str × Session) (Outcome × Session) :=
  let afterClick : Except (Str × Session) Session :=
    match act st (Call.clickCssC selector) (o.cssClick selector) with
    | Except.ok (_, st1) => Except.ok st1
    | Except.error (_, st1) =>
      match act st1 (Call.clickTextC selector) (o.textClick selector) with
      | Except.ok (_, st2) => Except.ok st2
      | Except.error e => Except.error e
  match afterClick with
  | Except.error e => Except.error e
  | Except.ok st2 =>
    match act st2 Call.loadStateC o.loadStateWait with
    | Except.error e => Except.error e
    | Except.ok (_, st3) =>
      Except.ok (Outcome.result ("Clicked: ".data ++ selector), st3)

/-- `scroll(direction)` of `src/pilot.js`: a four-way switch with an
explicit default for unknown directions. -/
def scroll (o : BrowserOracle) (st : Session) (direction : Str) :
    Except (Str × Session) (Outcome × Session) :=
  if direction = "up".data then
    simpleAct st (Call.scrollC direction) (o.scrollEval direction)
      (fun _ => Outcome.result ("Scrolled up".data))
  else if direction = "down".data then
    simpleAct st (Call.scrollC direction) (o.scrollEval direction)
      (fun _ => Outcome.result ("Scrolled down".data))
  else if direction = "top".data then
    simpleAct st (Call.scrollC direction) (o.scrollEval direction)
      (fun _ => Outcome.result ("Scrolled to top".data))
  else if direction = "bottom".data then
    simpleAct st (Call.scrollC direction) (o.scrollEval direction)
      (fun _ => Outcome.result ("Scrolled to bottom".data))
  else
    Except.ok (Outcome.result ("Unknown scroll direction: ".data ++ direction), st)

/-- The `try` block of `executeCommand(command)` of `src/pilot.js`:
the case-insensitive exact-tag chain on `command.toLowerCase()`, then
the case-sensitive prefixed-tag chain on the original `command`, then
the unknown-command fallthrough.  An `Except.error` is a raised
exception reaching the surrounding `catch`. -/
def execTry (o : BrowserOracle) (st : Session) (command : Str) :
    Except (Str × Session) (Outcome × Session) :=
  let cmd := toLower command
  if cmd = "screenshot".data then
    simpleAct st Call.screenshotC o.screenshotSave Outcome.result
  else if cmd = "text".data then
    simpleAct st Call.textC o.textExtract Outcome.result
  else if cmd = "html".data then
    simpleAct st Call.htmlC o.htmlSave Outcome.result
  else if cmd = "url".data then
    Except.ok (Outcome.result ("URL: ".data ++ o.pageUrl), st)
  else if cmd = "title".data then
    simpleAct st Call.titleC o.pageTitle
      (fun t => Outcome.result ("Title: ".data ++ t))
  else if cmd = "tables".data then
    simpleAct st Call.tablesC o.tablesExtract Outcome.result
  else if cmd = "links".data then
    simpleAct st Call.linksC o.linksExtract Outcome.result
  else if cmd = "back".data then
    simpleAct st Call.backC o.backNav
      (fun _ => Outcome.result ("Navigated back to: ".data ++ o.backUrl))
  else if cmd = "forward".data then
    simpleAct st Call.forwardC o.forwardNav
      (fun _ => Outcome.result ("Navigated forward to: ".data ++ o.forwardUrl))
  else if cmd = "refresh".data then
    simpleAct st Call.reloadC o.reloadNav
      (fun _ => Outcome.result ("Refreshed: ".data ++ o.reloadUrl))
  else if cmd = "quit".data then
    let st1 := { st with running := false }
    if st1.hasBrowser then
      simpleAct st1 Call.closeBrowserC o.browserClose (fun _ => Outcome.exited 0)
    else if st1.hasContext then
      simpleAct st1 Call.closeContextC o.contextClose (fun _ => Outcome.exited 0)
    else
      Except.ok (Outcome.exited 0, st1)
  else if ("goto:".data).isPrefixOf command then
    let url := trim (command.drop 5)
    simpleAct st (Call.gotoC url) (o.gotoNav url)
      (fun _ => Outcome.result ("Navigated to: ".data ++ o.gotoUrlAfter url))
  else if ("click:".data).isPrefixOf command then
    let selector := trim (command.drop 6)
    clickElement o st selector
  else if ("type:".data).isPrefixOf command then
    let parts := splitColon (command.drop 5)
    let selector := trim (parts.headD [])
    let text := trim (joinColon (parts.drop 1))
    simpleAct st (Call.fillC selector text) (o.fillInput selector text)
      (fun _ => Outcome.result ("Typed \"".data ++ text ++ "\" into ".data ++ selector))
  else if ("wait:".data).isPrefixOf command then
    let seconds : Int :=
      match jsParseInt (trim (command.drop 5)) with
      | some n => if n = 0 then 2 else n
      | none => 2
    let st1 := { st with calls := st.calls ++ [Call.sleepC (seconds * 1000)] }
    Except.ok (Outcome.result ("Waited ".data ++ intToStr seconds ++ " seconds".data), st1)
  else if ("scroll:".data).isPrefixOf command then
    let direction := toLower (trim (command.drop 7))
    scroll o st direction
  else
    Except.ok (Outcome.result ("ERROR: Unknown command: ".data ++ command), st)

/-- `executeCommand(command)` of `src/pilot.js`: the `try` block wrapped
in the `catch (err) { return 'ERROR: ' + err.message }` handler. -/
def executeCommand (o : BrowserOracle) (st : Session) (command : Str) :
    Outcome × Session :=
  match execTry o st command with
  | Except.ok r => r
  | Except.error (m, st') => (Outcome.result ("ERROR: ".data ++ m), st')

/-- One observation of the command file in a poll cycle: the file is
absent, reading it threw, or it held the given raw content. -/
inductive Poll
  | missing
  | readErr
  | content (s : Str)
deriving DecidableEq

/-- Externally visible events of a run of the poll loop. -/
inductive Ev
  | dispatch (cmd : Str)
  | write (res : Str)
  | procExit (code : Nat)
deriving DecidableEq

/-- `pollCommands()` of `src/pilot.js`, run against a finite sequence
of command-file observations (one per poll cycle): while `running`,
skip absent files, read failures, blank content and content equal to
`lastCommand`; otherwise record `lastCommand`, dispatch, and either
stop at a `process.exit` or write the result and continue. -/
def pollRun (o : BrowserOracle) : Session → List Poll → List Ev
  | _, [] => []
  | st, p :: rest =>
    if st.running then
      match p with
      | Poll.missing => pollRun o st rest
      | Poll.readErr => pollRun o st rest
      | Poll.content s =>
        let command := trim s
        if command = [] ∨ command = st.lastCommand then pollRun o st rest
        else
          let st1 := { st with lastCommand := command }
          match executeCommand o st1 command with
          | (Outcome.exited code, _) => [Ev.dispatch command, Ev.procExit code]
          | (Outcome.result r, st2) =>
            Ev.dispatch command :: Ev.write r :: pollRun o st2 rest
    else []

/-- The commands dispatched during a run, in order. -/
def dispatched (evs : List Ev) : List Str :=
  evs.filterMap (fun e =>
    match e with
    | Ev.dispatch c => some c
    | _ => none)

/-- Whether an event is a result-file write. -/
def isWrite : Ev → Bool
  | Ev.write _ => true
  | _ => false

/-- Number of resource releases (`browser.close()`/`context.close()`
calls) in a call trace. -/
def closeCount (l : List Call) : Nat :=
  (l.filter (fun c => c = Call.closeBrowserC ∨ c = Call.closeContextC)).length

/-- The exact-match tags of `executeCommand` (matched against the
lower-cased command). -/
def exactTags : List Str :=
  ["screenshot".data, "text".data, "html".data, "url".data, "title".data,
   "tables".data, "links".data, "back".data, "forward".data, "refresh".data,
   "quit".data]

/-- The prefixed tags of `executeCommand` (matched against the original
command). -/
def prefixTags : List Str :=
  ["goto:".data, "click:".data, "type:".data, "wait:".data, "scroll:".data]

/-- A command is recognized when its lower-casing is an exact tag or the
original text starts with a prefixed tag — the disjunction of the
sixteen branch guards of `executeCommand`. -/
def recognized (command : Str) : Bool :=
  toLower command == "screenshot".data || toLower command == "text".data ||
  toLower command == "html".data || toLower command == "url".data ||
  toLower command == "title".data || toLower command == "tables".data ||
  toLower command == "links".data || toLower command == "back".data ||
  toLower command == "forward".data || toLower command == "refresh".data ||
  toLower command == "quit".data ||
  ("goto:".data).isPrefixOf command || ("click:".data).isPrefixOf command ||
  ("type:".data).isPrefixOf command || ("wait:".data).isPrefixOf command ||
  ("scroll:".data).isPrefixOf command

/-- Everything-succeeds browser oracle used for concrete evaluations. -/
def okOracle : BrowserOracle where
  screenshotSave := Except.ok ("Screenshot saved: shot.png".data)
  textExtract := Except.ok ("hello".data)
  htmlSave := Except.ok ("HTML saved: page.html".data)
  pageUrl := "https://example.com/".data
  pageTitle := Except.ok ("Example Domain".data)
  tablesExtract := Except.ok ("No tables found on page".data)
  linksExtract := Except.ok ("Found 0 links:\n".data)
  backNav := Except.ok ()
  backUrl := "https://example.com/a".data
  forwardNav := Except.ok ()
  forwardUrl := "https://example.com/b".data
  reloadNav := Except.ok ()
  reloadUrl := "https://example.com/".data
  browserClose := Except.ok ()
  contextClose := Except.ok ()
  gotoNav := fun _ => Except.ok ()
  gotoUrlAfter := fun u => u
  cssClick := fun _ => Except.ok ()
  textClick := fun _ => Except.ok ()
  loadStateWait := Except.ok ()
  fillInput := fun _ _ => Except.ok ()
  scrollEval := fun _ => Except.ok ()

/-- A session as it stands right after `start()`: running, no command
seen yet, a plain (non-persistent-profile) browser launch. -/
def freshSession : Session where
  running := true
  lastCommand := []
  hasBrowser := true
  hasContext := true
  calls := []

/-- The session carried by either constructor of a dispatch attempt. -/
def exSession : Except (Str × Session) (Outcome × Session) → Session
  | Except.error (_, st) => st
  | Except.ok (_, st) => st

/-- The outcome of a non-throwing dispatch attempt, if any. -/
def exOutcome : Except (Str × Session) (Outcome × Session) → Option Outcome
  | Except.error _ => none
  | Except.ok (out, _) => some out

lemma act_eq_ok {α : Type} (st : Session) (c : Call) (r : Except Str α)
    (p : α × Session) :
    act st c r = Except.ok p ↔
      r = Except.ok p.1 ∧ p.2 = { st with calls := st.calls ++ [c] } := by
  cases r <;> cases p <;> simp [act] <;> aesop

lemma act_eq_error {α : Type} (st : Session) (c : Call) (r : Except Str α)
    (e : Str × Session) :
    act st c r = Except.error e ↔
      r = Except.error e.1 ∧ e.2 = { st with calls := st.calls ++ [c] } := by
  cases r <;> cases e <;> simp [act] <;> aesop

lemma simpleAct_eq_ok {α : Type} (st : Session) (c : Call) (x : Except Str α)
    (f : α → Outcome) (p : Outcome × Session) :
    simpleAct st c x f = Except.ok p ↔
      ∃ a, x = Except.ok a ∧ p = (f a, { st with calls := st.calls ++ [c] }) := by
  cases x <;> cases p <;> simp [simpleAct, act] <;> aesop

lemma simpleAct_eq_error {α : Type} (st : Session) (c : Call) (x : Except Str α)
    (f : α → Outcome) (e : Str × Session) :
    simpleAct st c x f = Except.error e ↔
      x = Except.error e.1 ∧ e.2 = { st with calls := st.calls ++ [c] } := by
  cases x <;> cases e <;> simp [simpleAct, act] <;> aesop

/-- A single-call branch mutates the session only by recording its
call. -/
lemma simpleAct_session {α : Type} (st : Session) (c : Call) (x : Except Str α)
    (f : α → Outcome) (r : Except (Str × Session) (Outcome × Session))
    (hr : simpleAct st c x f = r) :
    exSession r = { st with calls := st.calls ++ [c] } := by
  cases x <;> (simp only [simpleAct, act] at hr; subst hr; simp [exSession])

/-- A single-call branch whose wrapper never exits cannot exit. -/
lemma simpleAct_no_exit {α : Type} (st : Session) (c : Call) (x : Except Str α)
    (f : α → Outcome) (r : Except (Str × Session) (Outcome × Session))
    (hr : simpleAct st c x f = r) (hf : ∀ a n, f a ≠ Outcome.exited n) :
    ∀ n, exOutcome r ≠ some (Outcome.exited n) := by
  cases x
  · simp only [simpleAct, act] at hr
    subst hr
    simp [exOutcome]
  · simp only [simpleAct, act] at hr
    subst hr
    exact fun n hcon => hf _ n (Option.some.inj hcon)

lemma clickElement_state (o : BrowserOracle) (st : Session) (sel : Str)
    (r : Except (Str × Session) (Outcome × Session))
    (hr : clickElement o st sel = r) :
    (exSession r).running = st.running
    ∧ (exSession r).lastCommand = st.lastCommand
    ∧ (exSession r).hasBrowser = st.hasBrowser
    ∧ (exSession r).hasContext = st.hasContext
    ∧ ∀ n, exOutcome r ≠ some (Outcome.exited n) := by
  cases hc : o.cssClick sel <;> cases ht : o.textClick sel <;> cases hl : o.loadStateWait <;>
    (simp only [clickElement, act, hc, ht, hl] at hr; subst hr; simp [exSession, exOutcome])

lemma scroll_state (o : BrowserOracle) (st : Session) (d : Str)
    (r : Except (Str × Session) (Outcome × Session))
    (hr : scroll o st d = r) :
    (exSession r).running = st.running
    ∧ (exSession r).lastCommand = st.lastCommand
    ∧ (exSession r).hasBrowser = st.hasBrowser
    ∧ (exSession r).hasContext = st.hasContext
    ∧ ∀ n, exOutcome r ≠ some (Outcome.exited n) := by
  unfold scroll at hr
  repeat' split at hr
  all_goals
    try (rw [simpleAct_session st _ _ _ r hr]
         exact ⟨rfl, rfl, rfl, rfl,
           simpleAct_no_exit st _ _ _ r hr (fun a n => by simp)⟩)
  subst hr
  simp [exSession, exOutcome]

/-- The conclusion of the master frame lemma on the `try` block. -/
def StateConcl (st : Session) (cmd : Str)
    (r : Except (Str × Session) (Outcome × Session)) : Prop :=
  ((exSession r).running = if toLower cmd = "quit".data then false else st.running)
  ∧ (exSession r).lastCommand = st.lastCommand
  ∧ (exSession r).hasBrowser = st.hasBrowser
  ∧ (exSession r).hasContext = st.hasContext
  ∧ (toLower cmd ≠ "quit".data →
      ∀ n, exOutcome r ≠ some (Outcome.exited n))

lemma stateConcl_of (st : Session) (cmd : Str)
    (r : Except (Str × Session) (Outcome × Session)) (ks : List Call)
    (hq : toLower cmd ≠ "quit".data)
    (hs : exSession r = { st with calls := st.calls ++ ks })
    (hx : ∀ n, exOutcome r ≠ some (Outcome.exited n)) :
    StateConcl st cmd r := by
  refine ⟨?_, ?_, ?_, ?_, fun _ => hx⟩ <;> rw [hs] <;> simp [hq]

lemma stateConcl_quit (st : Session) (cmd : Str)
    (r : Except (Str × Session) (Outcome × Session)) (ks : List Call)
    (hq : toLower cmd = "quit".data)
    (hs : exSession r =
      { st with running := false, calls := st.calls ++ ks }) :
    StateConcl st cmd r := by
  refine ⟨?_, ?_, ?_, ?_, fun h => absurd hq h⟩ <;> rw [hs] <;> simp [hq]

/-- Master frame lemma on the `try` block: only `quit` flips `running`,
no branch touches `lastCommand`/`hasBrowser`/`hasContext`, and only
`quit` can reach `process.exit`. -/
lemma execTry_state (o : BrowserOracle) (st : Session) (cmd : Str) :
    StateConcl st cmd (execTry o st cmd) := by
  have hgen : ∀ r, execTry o st cmd = r → StateConcl st cmd r := by
    intro r hr
    simp only [execTry] at hr
    by_cases e1 : toLower cmd = "screenshot".data
    · rw [if_pos e1] at hr
      exact stateConcl_of st cmd r _ (by rw [e1]; decide)
        (simpleAct_session _ _ _ _ r hr)
        (simpleAct_no_exit _ _ _ _ r hr (by intro a n; simp))
    rw [if_neg e1] at hr
    by_cases e2 : toLower cmd = "text".data
    · rw [if_pos e2] at hr
      exact stateConcl_of st cmd r _ (by rw [e2]; decide)
        (simpleAct_session _ _ _ _ r hr)
        (simpleAct_no_exit _ _ _ _ r hr (by intro a n; simp))
    rw [if_neg e2] at hr
    by_cases e3 : toLower cmd = "html".data
    · rw [if_pos e3] at hr
      exact stateConcl_of st cmd r _ (by rw [e3]; decide)
        (simpleAct_session _ _ _ _ r hr)
        (simpleAct_no_exit _ _ _ _ r hr (by intro a n; simp))
    rw [if_neg e3] at hr
    by_cases e4 : toLower cmd = "url".data
    · rw [if_pos e4] at hr
      exact stateConcl_of st cmd r [] (by rw [e4]; decide)
        (by rw [← hr]; simp [exSession])
        (by rw [← hr]; simp [exOutcome])
    rw [if_neg e4] at hr
    by_cases e5 : toLower cmd = "title".data
    · rw [if_pos e5] at hr
      exact stateConcl_of st cmd r _ (by rw [e5]; decide)
        (simpleAct_session _ _ _ _ r hr)
        (simpleAct_no_exit _ _ _ _ r hr (by intro a n; simp))
    rw [if_neg e5] at hr
    by_cases e6 : toLower cmd = "tables".data
    · rw [if_pos e6] at hr
      exact stateConcl_of st cmd r _ (by rw [e6]; decide)
        (simpleAct_session _ _ _ _ r hr)
        (simpleAct_no_exit _ _ _ _ r hr (by intro a n; simp))
    rw [if_neg e6] at hr
    by_cases e7 : toLower cmd = "links".data
    · rw [if_pos e7] at hr
      exact stateConcl_of st cmd r _ (by rw [e7]; decide)
        (simpleAct_session _ _ _ _ r hr)
        (simpleAct_no_exit _ _ _ _ r hr (by intro a n; simp))
    rw [if_neg e7] at hr
    by_cases e8 : toLower cmd = "back".data
    · rw [if_pos e8] at hr
      exact stateConcl_of st cmd r _ (by rw [e8]; decide)
        (simpleAct_session _ _ _ _ r hr)
        (simpleAct_no_exit _ _ _ _ r hr (by intro a n; simp))
    rw [if_neg e8] at hr
    by_cases e9 : toLower cmd = "forward".data
    · rw [if_pos e9] at hr
      exact stateConcl_of st cmd r _ (by rw [e9]; decide)
        (simpleAct_session _ _ _ _ r hr)
        (simpleAct_no_exit _ _ _ _ r hr (by intro a n; simp))
    rw [if_neg e9] at hr
    by_cases e10 : toLower cmd = "refresh".data
    · rw [if_pos e10] at hr
      exact stateConcl_of st cmd r _ (by rw [e10]; decide)
        (simpleAct_session _ _ _ _ r hr)
        (simpleAct_no_exit _ _ _ _ r hr (by intro a n; simp))
    rw [if_neg e10] at hr
    by_cases e11 : toLower cmd = "quit".data
    · rw [if_pos e11] at hr
      by_cases hb : st.hasBrowser = true
      · rw [if_pos hb] at hr
        refine stateConcl_quit st cmd r [Call.closeBrowserC] e11 ?_
        rw [simpleAct_session _ _ _ _ r hr]
      rw [if_neg hb] at hr
      by_cases hc : st.hasContext = true
      · rw [if_pos hc] at hr
        refine stateConcl_quit st cmd r [Call.closeContextC] e11 ?_
        rw [simpleAct_session _ _ _ _ r hr]
      rw [if_neg hc] at hr
      exact stateConcl_quit st cmd r [] e11 (by rw [← hr]; simp [exSession])
    rw [if_neg e11] at hr
    by_cases p1 : ("goto:".data).isPrefixOf cmd = true
    · rw [if_pos p1] at hr
      exact stateConcl_of st cmd r _ e11
        (simpleAct_session _ _ _ _ r hr)
        (simpleAct_no_exit _ _ _ _ r hr (by intro a n; simp))
    rw [if_neg p1] at hr
    by_cases p2 : ("click:".data).isPrefixOf cmd = true
    · rw [if_pos p2] at hr
      obtain ⟨h1, h2, h3, h4, h5⟩ := clickElement_state o st _ r hr
      refine ⟨?_, h2, h3, h4, fun _ => h5⟩
      rw [h1, if_neg e11]
    rw [if_neg p2] at hr
    by_cases p3 : ("type:".data).isPrefixOf cmd = true
    · rw [if_pos p3] at hr
      exact stateConcl_of st cmd r _ e11
        (simpleAct_session _ _ _ _ r hr)
        (simpleAct_no_exit _ _ _ _ r hr (by intro a n; simp))
    rw [if_neg p3] at hr
    by_cases p4 : ("wait:".data).isPrefixOf cmd = true
    · rw [if_pos p4] at hr
      exact stateConcl_of st cmd r
        [Call.sleepC ((match jsParseInt (trim (cmd.drop 5)) with
          | some n => if n = 0 then 2 else n
          | none => 2) * 1000)] e11
        (by rw [← hr]; simp [exSession])
        (by rw [← hr]; simp [exOutcome])
    rw [if_neg p4] at hr
    by_cases p5 : ("scroll:".data).isPrefixOf cmd = true
    · rw [if_pos p5] at hr
      obtain ⟨h1, h2, h3, h4, h5⟩ := scroll_state o st _ r hr
      refine ⟨?_, h2, h3, h4, fun _ => h5⟩
      rw [h1, if_neg e11]
    rw [if_neg p5] at hr
    exact stateConcl_of st cmd r [] e11
      (by rw [← hr]; simp [exSession])
      (by rw [← hr]; simp [exOutcome])
  exact hgen _ rfl

lemma exec_of_execTry_error (o : BrowserOracle) (st : Session) (cmd : Str)
    (m : Str) (st' : Session) (h : execTry o st cmd = Except.error (m, st')) :
    executeCommand o st cmd = (Outcome.result ("ERROR: ".data ++ m), st') := by
  unfold executeCommand
  rw [h]

lemma exec_of_execTry_ok (o : BrowserOracle) (st : Session) (cmd : Str)
    (r : Outcome × Session) (h : execTry o st cmd = Except.ok r) :
    executeCommand o st cmd = r := by
  unfold executeCommand
  rw [h]

lemma exec_session (o : BrowserOracle) (st : Session) (cmd : Str) :
    (executeCommand o st cmd).2 = exSession (execTry o st cmd) := by
  unfold executeCommand
  rcases h : execTry o st cmd with ⟨m, st'⟩ | ⟨out, st'⟩ <;> simp [exSession]

/-- Only `quit` flips the running flag. -/
lemma exec_running (o : BrowserOracle) (st : Session) (cmd : Str) :
    (executeCommand o st cmd).2.running =
      if toLower cmd = "quit".data then false else st.running := by
  rw [exec_session]
  exact (execTry_state o st cmd).1

/-- The dispatcher never touches `lastCommand`. -/
lemma exec_lastCommand (o : BrowserOracle) (st : Session) (cmd : Str) :
    (executeCommand o st cmd).2.lastCommand = st.lastCommand := by
  rw [exec_session]
  exact (execTry_state o st cmd).2.1

/-- Only `quit` can reach `process.exit`. -/
lemma exec_no_exit (o : BrowserOracle) (st : Session) (cmd : Str)
    (h : toLower cmd ≠ "quit".data) :
    ∀ n, (executeCommand o st cmd).1 ≠ Outcome.exited n := by
  intro n
  unfold executeCommand
  rcases hx : execTry o st cmd with ⟨m, st'⟩ | ⟨out, st'⟩
  · simp
  · have := (execTry_state o st cmd).2.2.2.2 h n
    rw [hx] at this
    simp only [exOutcome] at this
    simpa using this

lemma toLower_append (a b : Str) : toLower (a ++ b) = toLower a ++ toLower b := by
  simp [toLower]

lemma isPrefixOf_self_append (p x : Str) : p.isPrefixOf (p ++ x) = true := by
  induction p with
  | nil => simp [List.isPrefixOf]
  | cons c t ih => simp [List.isPrefixOf, ih]

lemma data_screenshot : ("screenshot".data : Str) = ['s','c','r','e','e','n','s','h','o','t'] := rfl

lemma data_text : ("text".data : Str) = ['t','e','x','t'] := rfl

lemma data_html : ("html".data : Str) = ['h','t','m','l'] := rfl

lemma data_url : ("url".data : Str) = ['u','r','l'] := rfl

lemma data_title : ("title".data : Str) = ['t','i','t','l','e'] := rfl

lemma data_tables : ("tables".data : Str) = ['t','a','b','l','e','s'] := rfl

lemma data_links : ("links".data : Str) = ['l','i','n','k','s'] := rfl

lemma data_back : ("back".data : Str) = ['b','a','c','k'] := rfl

lemma data_forward : ("forward".data : Str) = ['f','o','r','w','a','r','d'] := rfl

lemma data_refresh : ("refresh".data : Str) = ['r','e','f','r','e','s','h'] := rfl

lemma data_quit : ("quit".data : Str) = ['q','u','i','t'] := rfl

lemma data_goto : ("goto:".data : Str) = ['g','o','t','o',':'] := rfl

lemma data_click : ("click:".data : Str) = ['c','l','i','c','k',':'] := rfl

lemma data_type : ("type:".data : Str) = ['t','y','p','e',':'] := rfl

lemma data_wait : ("wait:".data : Str) = ['w','a','i','t',':'] := rfl

lemma data_scroll : ("scroll:".data : Str) = ['s','c','r','o','l','l',':'] := rfl

/-- Dispatch of a well-formed `wait:` command reaches the `wait:`
branch: none of the earlier tags can match. -/
lemma execTry_wait_eq (o : BrowserOracle) (st : Session) (arg : Str) :
    execTry o st ("wait:".data ++ arg) =
      (let seconds : Int :=
        match jsParseInt (trim arg) with
        | some n => if n = 0 then 2 else n
        | none => 2
      Except.ok
        (Outcome.result ("Waited ".data ++ intToStr seconds ++ " seconds".data),
          { st with calls := st.calls ++ [Call.sleepC (seconds * 1000)] })) := by
  simp +decide [execTry, toLower, lowerChar, List.isPrefixOf,
    data_screenshot, data_text, data_html, data_url, data_title, data_tables,
    data_links, data_back, data_forward, data_refresh, data_quit,
    data_goto, data_click, data_type, data_wait, data_scroll]

/-- Dispatch of a well-formed `scroll:` command reaches the `scroll:`
branch with the trimmed, lower-cased remainder as direction. -/
lemma execTry_scroll_eq (o : BrowserOracle) (st : Session) (arg : Str) :
    execTry o st ("scroll:".data ++ arg) =
      scroll o st (toLower (trim arg)) := by
  simp +decide [execTry, toLower, lowerChar, List.isPrefixOf,
    data_screenshot, data_text, data_html, data_url, data_title, data_tables,
    data_links, data_back, data_forward, data_refresh, data_quit,
    data_goto, data_click, data_type, data_wait, data_scroll]

/-- Dispatch of a well-formed `type:` command reaches the `type:`
branch, splitting the remainder on colons. -/
lemma execTry_type_eq (o : BrowserOracle) (st : Session) (arg : Str) :
    execTry o st ("type:".data ++ arg) =
      (let parts := splitColon arg
      let selector := trim (parts.headD [])
      let text := trim (joinColon (parts.drop 1))
      simpleAct st (Call.fillC selector text) (o.fillInput selector text)
        (fun _ => Outcome.result
          ("Typed \"".data ++ text ++ "\" into ".data ++ selector))) := by
  simp +decide [execTry, toLower, lowerChar, List.isPrefixOf,
    data_screenshot, data_text, data_html, data_url, data_title, data_tables,
    data_links, data_back, data_forward, data_refresh, data_quit,
    data_goto, data_click, data_type, data_wait, data_scroll]

/-- Modelled from the spec: the `type:` argument splits at the FIRST
colon — the selector is everything before it. -/
def beforeFirstColon (s : Str) : Str := s.takeWhile (fun c => !(c == ':'))

/-- Modelled from the spec: the `type:` argument splits at the FIRST
colon — the literal text is everything after it, colons included. -/
def afterFirstColon (s : Str) : Str := (s.dropWhile (fun c => !(c == ':'))).drop 1

lemma splitColon_ne_nil (l : Str) : splitColon l ≠ [] := by
  cases l with
  | nil => simp [splitColon]
  | cons c t => by_cases hc : c = ':' <;> simp [splitColon, hc]

lemma splitColon_head (l : Str) : (splitColon l).headD [] = beforeFirstColon l := by
  induction l with
  | nil => rfl
  | cons c t ih =>
    by_cases hc : c = ':'
    · subst hc
      simp [splitColon, beforeFirstColon]
    · simp [splitColon, beforeFirstColon, hc] at ih ⊢
      exact ih

lemma joinColon_splitColon (l : Str) : joinColon (splitColon l) = l := by
  induction l with
  | nil => rfl
  | cons c t ih =>
    obtain ⟨y, ys, hy⟩ := List.exists_cons_of_ne_nil (splitColon_ne_nil t)
    by_cases hc : c = ':'
    · subst hc
      simp only [splitColon, if_pos rfl]
      rw [hy]
      simp only [joinColon, List.nil_append]
      rw [← hy, ih]
    · simp only [splitColon, if_neg hc]
      rw [hy]
      simp only [List.headD_cons, List.tail_cons]
      cases ys with
      | nil =>
        have hyt : y = t := by
          rw [hy] at ih
          simpa [joinColon] using ih
        simp [joinColon, hyt]
      | cons z zs =>
        have hyt : y ++ ':' :: joinColon (z :: zs) = t := by
          rw [hy] at ih
          simpa [joinColon] using ih
        simp [joinColon, List.cons_append, hyt]

lemma joinColon_tail (l : Str) :
    joinColon ((splitColon l).drop 1) = afterFirstColon l := by
  induction l with
  | nil => rfl
  | cons c t ih =>
    by_cases hc : c = ':'
    · subst hc
      have hs : splitColon (':' :: t) = [] :: splitColon t := by simp [splitColon]
      rw [hs, List.drop_succ_cons, List.drop_zero, joinColon_splitColon]
      simp [afterFirstColon, List.dropWhile_cons]
    · have hs : splitColon (c :: t) =
          (c :: (splitColon t).headD []) :: (splitColon t).tail := by
        simp [splitColon, hc]
      rw [hs, List.drop_succ_cons, List.drop_zero, ← List.drop_one, ih]
      simp [afterFirstColon, List.dropWhile_cons, hc]

/-- A stopped loop performs no further cycle. -/
lemma pollRun_not_running (o : BrowserOracle) (st : Session)
    (polls : List Poll) (h : st.running = false) :
    pollRun o st polls = [] := by
  cases polls with
  | nil => rfl
  | cons p rest => simp [pollRun, h]

/-- C1.  In every run of the poll loop, each dispatched command is the
trimmed, non-empty file content, it differs from the `lastCommand`
value current when it was dispatched (which was just set to it), and
hence the same trimmed command-file content is never dispatched twice
in a row. -/
lemma dispatched_nil : dispatched [] = [] := rfl

lemma dispatched_cons_dispatch (c : Str) (evs : List Ev) :
    dispatched (Ev.dispatch c :: evs) = c :: dispatched evs := by
  simp [dispatched]

lemma dispatched_cons_write (r : Str) (evs : List Ev) :
    dispatched (Ev.write r :: evs) = dispatched evs := by
  simp [dispatched]

lemma dispatched_cons_exit (n : Nat) (evs : List Ev) :
    dispatched (Ev.procExit n :: evs) = dispatched evs := by
  simp [dispatched]

theorem pollRun_no_duplicate_dispatch (o : BrowserOracle) (st : Session)
    (polls : List Poll) :
    List.Chain' (fun a b => a ≠ b)
      (st.lastCommand :: dispatched (pollRun o st polls))
    ∧ ∀ c ∈ dispatched (pollRun o st polls), c ≠ [] := by
  induction polls generalizing st with
  | nil => simp [pollRun, dispatched]
  | cons p rest ih =>
    by_cases hrun : st.running = true
    · cases p with
      | missing =>
        have h1 : pollRun o st (Poll.missing :: rest) = pollRun o st rest := by
          simp [pollRun, hrun]
        rw [h1]
        exact ih st
      | readErr =>
        have h1 : pollRun o st (Poll.readErr :: rest) = pollRun o st rest := by
          simp [pollRun, hrun]
        rw [h1]
        exact ih st
      | content s =>
        simp only [pollRun]
        rw [if_pos hrun]
        by_cases hskip : trim s = [] ∨ trim s = st.lastCommand
        · rw [if_pos hskip]
          exact ih st
        rw [if_neg hskip]
        push_neg at hskip
        obtain ⟨hne, hdiff⟩ := hskip
        rcases hx : executeCommand o { st with lastCommand := trim s } (trim s)
          with ⟨out, st2⟩
        have hlast : st2.lastCommand = trim s := by
          have h2 := exec_lastCommand o { st with lastCommand := trim s } (trim s)
          rw [hx] at h2
          simpa using h2
        cases out with
        | exited code =>
          dsimp only
          refine ⟨?_, ?_⟩
          · rw [dispatched_cons_dispatch, dispatched_cons_exit, dispatched_nil]
            refine List.chain'_cons.mpr ⟨fun h => hdiff h.symm, ?_⟩
            simp
          · intro c hc
            rw [dispatched_cons_dispatch, dispatched_cons_exit, dispatched_nil] at hc
            rcases List.mem_singleton.mp hc with h
            subst h
            exact hne
        | result res =>
          dsimp only
          obtain ⟨ihchain, ihmem⟩ := ih st2
          rw [hlast] at ihchain
          refine ⟨?_, ?_⟩
          · rw [dispatched_cons_dispatch, dispatched_cons_write]
            exact List.chain'_cons.mpr ⟨fun h => hdiff h.symm, ihchain⟩
          · intro c hc
            rw [dispatched_cons_dispatch, dispatched_cons_write] at hc
            rcases List.mem_cons.mp hc with h | h
            · subst h
              exact hne
            · exact ihmem c h
    · have hnot : st.running = false := by simpa using hrun
      rw [pollRun_not_running o st _ hnot]
      simp [dispatched]

/-- C9.  Blank (empty or whitespace-only) command-file content, a
missing command file, and a read error are all treated as "no new
command": the poll cycle changes nothing (no dispatch, no write,
`lastCommand` untouched) and the loop goes on exactly as if the cycle
had not happened. -/
theorem poll_blank_and_errors_no_command (o : BrowserOracle) (st : Session)
    (s : Str) (rest : List Poll) (hb : trim s = []) :
    pollRun o st (Poll.content s :: rest) = pollRun o st rest
    ∧ pollRun o st (Poll.missing :: rest) = pollRun o st rest
    ∧ pollRun o st (Poll.readErr :: rest) = pollRun o st rest := by
  by_cases hrun : st.running = true
  · refine ⟨?_, ?_, ?_⟩ <;> simp [pollRun, hrun, hb]
  · have hnot : st.running = false := by simpa using hrun
    refine ⟨?_, ?_, ?_⟩ <;>
      rw [pollRun_not_running o st _ hnot, pollRun_not_running o st rest hnot]

/-- Witness for C9 at concrete inputs: a whitespace-only read and a
missing file behave as skipped cycles. -/
theorem poll_blank_and_errors_no_command_witness :
    trim (" ".data) = []
    ∧ pollRun okOracle freshSession
        [Poll.content (" ".data), Poll.content ("title".data)] =
      pollRun okOracle freshSession [Poll.content ("title".data)] :=
  ⟨by decide,
    (poll_blank_and_errors_no_command okOracle freshSession (" ".data)
      [Poll.content ("title".data)] (by decide)).1⟩

/-- C4.  A `type:` command splits its argument only on the first colon:
the selector is the (trimmed) substring before that colon and the
literal text passed to `fill` is everything after it, colons included;
in particular `type:#field:hello:world` types `hello:world` into
`#field`. -/
theorem type_splits_on_first_colon (o : BrowserOracle) (st : Session) (arg : Str) :
    (executeCommand o st ("type:".data ++ arg) =
      (let selector := trim (beforeFirstColon arg)
      let text := trim (afterFirstColon arg)
      match o.fillInput selector text with
      | Except.ok _ =>
        (Outcome.result ("Typed \"".data ++ text ++ "\" into ".data ++ selector),
          { st with calls := st.calls ++ [Call.fillC selector text] })
      | Except.error m =>
        (Outcome.result ("ERROR: ".data ++ m),
          { st with calls := st.calls ++ [Call.fillC selector text] })))
    ∧ executeCommand o st ("type:#field:hello:world".data) =
      (match o.fillInput ("#field".data) ("hello:world".data) with
      | Except.ok _ =>
        (Outcome.result ("Typed \"hello:world\" into #field".data),
          { st with calls :=
            st.calls ++ [Call.fillC ("#field".data) ("hello:world".data)] })
      | Except.error m =>
        (Outcome.result ("ERROR: ".data ++ m),
          { st with calls :=
            st.calls ++ [Call.fillC ("#field".data) ("hello:world".data)] })) := by
  have hmain : ∀ a : Str, executeCommand o st ("type:".data ++ a) =
      (let selector := trim (beforeFirstColon a)
      let text := trim (afterFirstColon a)
      match o.fillInput selector text with
      | Except.ok _ =>
        (Outcome.result ("Typed \"".data ++ text ++ "\" into ".data ++ selector),
          { st with calls := st.calls ++ [Call.fillC selector text] })
      | Except.error m =>
        (Outcome.result ("ERROR: ".data ++ m),
          { st with calls := st.calls ++ [Call.fillC selector text] })) := by
    intro a
    unfold executeCommand
    rw [execTry_type_eq]
    simp only [splitColon_head, joinColon_tail]
    cases hf : o.fillInput (trim (beforeFirstColon a)) (trim (afterFirstColon a)) <;>
      simp [simpleAct, act, hf]
  refine ⟨hmain arg, ?_⟩
  have h := hmain ("#field:hello:world".data)
  rw [show ("type:#field:hello:world".data : Str) =
    "type:".data ++ "#field:hello:world".data from rfl, h]
  have e1 : trim (beforeFirstColon ("#field:hello:world".data)) = "#field".data := by
    decide
  have e2 : trim (afterFirstColon ("#field:hello:world".data)) = "hello:world".data := by
    decide
  simp only [e1, e2]
  have e3 : ("Typed \"".data ++ "hello:world".data ++ "\" into ".data ++ "#field".data : Str) =
      "Typed \"hello:world\" into #field".data := by decide
  rw [e3]

/-- Counterexample to C5 as stated: `0` is parsable as an integer, yet
`wait:0` sleeps 2000 ms and reports `Waited 2 seconds`, because the
source computes `parseInt(arg) || 2` and `0` is falsy. -/
theorem wait_zero_counterexample :
    jsParseInt ("0".data) = some 0
    ∧ executeCommand okOracle freshSession ("wait:0".data) =
      (Outcome.result ("Waited 2 seconds".data),
        { freshSession with calls := [Call.sleepC 2000] }) :=
  ⟨by decide, by decide⟩

/-- C5 (amended).  `wait:<arg>` sleeps `n * 1000` ms and returns
`Waited <n> seconds` for every parsable integer argument `n` other
than 0; the default of 2 seconds is used when the argument is
unparsable or parses to 0 (both are falsy in `parseInt(arg) || 2`). -/
theorem wait_duration (o : BrowserOracle) (st : Session) (arg : Str) :
    (∀ n : Int, jsParseInt (trim arg) = some n → n ≠ 0 →
      executeCommand o st ("wait:".data ++ arg) =
        (Outcome.result ("Waited ".data ++ intToStr n ++ " seconds".data),
          { st with calls := st.calls ++ [Call.sleepC (n * 1000)] }))
    ∧ (jsParseInt (trim arg) = none ∨ jsParseInt (trim arg) = some 0 →
      executeCommand o st ("wait:".data ++ arg) =
        (Outcome.result ("Waited 2 seconds".data),
          { st with calls := st.calls ++ [Call.sleepC 2000] })) := by
  have h2s : ("Waited ".data ++ intToStr 2 ++ " seconds".data : Str) =
      "Waited 2 seconds".data := by decide
  have h2m : ((2 : Int) * 1000) = 2000 := by decide
  constructor
  · intro n hn hnz
    unfold executeCommand
    rw [execTry_wait_eq]
    simp only [hn]
    simp [hnz]
  · intro h
    unfold executeCommand
    rw [execTry_wait_eq]
    rcases h with h | h <;> simp only [h] <;> simp [h2s, h2m] <;> decide

/-- Witness for C5 (amended) at `wait:5`: five parsed seconds give a
5000 ms sleep. -/
theorem wait_duration_witness :
    jsParseInt (trim ("5".data)) = some 5
    ∧ executeCommand okOracle freshSession ("wait:".data ++ "5".data) =
      (Outcome.result ("Waited ".data ++ intToStr 5 ++ " seconds".data),
        { freshSession with calls := freshSession.calls ++ [Call.sleepC (5 * 1000)] }) :=
  ⟨by decide,
    (wait_duration okOracle freshSession ("5".data)).1 5 (by decide) (by decide)⟩

lemma scroll_default (o : BrowserOracle) (st : Session) (d : Str)
    (h1 : d ≠ "up".data) (h2 : d ≠ "down".data)
    (h3 : d ≠ "top".data) (h4 : d ≠ "bottom".data) :
    scroll o st d =
      Except.ok (Outcome.result ("Unknown scroll direction: ".data ++ d), st) := by
  simp [scroll, h1, h2, h3, h4]

/-- C6.  A `scroll:` command whose trimmed, lower-cased direction is
none of `up`, `down`, `top`, `bottom` yields the result
`Unknown scroll direction: <direction>` without raising and without
touching the session (so the loop keeps running). -/
theorem scroll_unknown_direction (o : BrowserOracle) (st : Session) (arg : Str)
    (h1 : toLower (trim arg) ≠ "up".data)
    (h2 : toLower (trim arg) ≠ "down".data)
    (h3 : toLower (trim arg) ≠ "top".data)
    (h4 : toLower (trim arg) ≠ "bottom".data) :
    executeCommand o st ("scroll:".data ++ arg) =
      (Outcome.result ("Unknown scroll direction: ".data ++ toLower (trim arg)), st) := by
  unfold executeCommand
  rw [execTry_scroll_eq, scroll_default o st _ h1 h2 h3 h4]

/-- Witness for C6 at `scroll:sideways`. -/
theorem scroll_unknown_direction_witness :
    executeCommand okOracle freshSession ("scroll:".data ++ "sideways".data) =
      (Outcome.result
        ("Unknown scroll direction: ".data ++ toLower (trim ("sideways".data))),
        freshSession) :=
  scroll_unknown_direction okOracle freshSession ("sideways".data)
    (by decide) (by decide) (by decide) (by decide)

/-- An unrecognized command falls through every branch guard to the
unknown-command result. -/
lemma execTry_unknown (o : BrowserOracle) (st : Session) (cmd : Str)
    (h : recognized cmd = false) :
    execTry o st cmd =
      Except.ok (Outcome.result ("ERROR: Unknown command: ".data ++ cmd), st) := by
  simp only [recognized, Bool.or_eq_false_iff, beq_eq_false_iff_ne] at h
  obtain ⟨⟨⟨⟨⟨⟨⟨⟨⟨⟨⟨⟨⟨⟨⟨h1, h2⟩, h3⟩, h4⟩, h5⟩, h6⟩, h7⟩, h8⟩,
    h9⟩, h10⟩, h11⟩, h12⟩, h13⟩, h14⟩, h15⟩, h16⟩ := h
  have p12 : ¬(("goto:".data).isPrefixOf cmd = true) := by simp [h12]
  have p13 : ¬(("click:".data).isPrefixOf cmd = true) := by simp [h13]
  have p14 : ¬(("type:".data).isPrefixOf cmd = true) := by simp [h14]
  have p15 : ¬(("wait:".data).isPrefixOf cmd = true) := by simp [h15]
  have p16 : ¬(("scroll:".data).isPrefixOf cmd = true) := by simp [h16]
  simp only [execTry]
  rw [if_neg h1, if_neg h2, if_neg h3, if_neg h4, if_neg h5, if_neg h6,
    if_neg h7, if_neg h8, if_neg h9, if_neg h10, if_neg h11,
    if_neg p12, if_neg p13, if_neg p14, if_neg p15, if_neg p16]

/-- Oracle whose `browser.close()` throws. -/
def failCloseOracle : BrowserOracle :=
  { okOracle with browserClose := Except.error ("boom".data) }

/-- Oracle whose `page.title()` throws. -/
def failTitleOracle : BrowserOracle :=
  { okOracle with pageTitle := Except.error ("boom".data) }

/-- Counterexample to C2 as stated: when `quit`'s `browser.close()`
throws, the failure is returned as an `ERROR: ` result, but the loop
does NOT continue after it — `running` is already false, so a
subsequent rewrite of the command file is never dispatched. -/
theorem quit_close_error_stops_loop_counterexample :
    executeCommand failCloseOracle freshSession ("quit".data) =
      (Outcome.result ("ERROR: boom".data),
        { freshSession with running := false, calls := [Call.closeBrowserC] })
    ∧ pollRun failCloseOracle freshSession
        [Poll.content ("quit".data), Poll.content ("title".data)] =
      [Ev.dispatch ("quit".data), Ev.write ("ERROR: boom".data)] :=
  ⟨by decide, by decide⟩

/-- C2 (amended).  `executeCommand` never raises: a failure thrown by a
browser action is caught and returned as `ERROR: <message>` (with the
session as mutated up to the throw), unrecognized text is returned as
`ERROR: Unknown command: <command>` rather than thrown, and — except
for `quit`, which has already stopped the loop — the running flag is
preserved and the dispatcher does not exit the process, so the loop
continues after any such result. -/
theorem executeCommand_error_contract (o : BrowserOracle) (st : Session) (cmd : Str) :
    (∀ m st', execTry o st cmd = Except.error (m, st') →
      executeCommand o st cmd = (Outcome.result ("ERROR: ".data ++ m), st'))
    ∧ (recognized cmd = false →
      executeCommand o st cmd =
        (Outcome.result ("ERROR: Unknown command: ".data ++ cmd), st))
    ∧ (toLower cmd ≠ "quit".data →
      (executeCommand o st cmd).2.running = st.running
      ∧ ∀ n, (executeCommand o st cmd).1 ≠ Outcome.exited n) := by
  refine ⟨?_, ?_, ?_⟩
  · intro m st' h
    unfold executeCommand
    rw [h]
  · intro h
    exact exec_of_execTry_ok o st cmd _ (execTry_unknown o st cmd h)
  · intro hq
    refine ⟨?_, exec_no_exit o st cmd hq⟩
    rw [exec_running]
    simp [hq]

/-- Witness for C2 (amended): a thrown `title` action surfaces as
`ERROR: boom`; unknown text surfaces as an unknown-command result; a
non-quit dispatch leaves `running` untouched. -/
theorem executeCommand_error_contract_witness :
    executeCommand failTitleOracle freshSession ("title".data) =
      (Outcome.result ("ERROR: ".data ++ "boom".data),
        { freshSession with calls := [Call.titleC] })
    ∧ executeCommand okOracle freshSession ("fly away".data) =
      (Outcome.result ("ERROR: Unknown command: ".data ++ "fly away".data),
        freshSession)
    ∧ (executeCommand okOracle freshSession ("text".data)).2.running =
      freshSession.running :=
  ⟨(executeCommand_error_contract failTitleOracle freshSession ("title".data)).1
      ("boom".data) { freshSession with calls := [Call.titleC] } (by decide),
    (executeCommand_error_contract okOracle freshSession ("fly away".data)).2.1
      (by decide),
    ((executeCommand_error_contract okOracle freshSession ("text".data)).2.2
      (by decide)).1⟩

/-- C10.  Prefixed-tag matching is case-sensitive on the original
command text: a command that would match a prefixed tag after
lower-casing, but does not literally start with any of the lowercase
prefixed tags, falls through to `ERROR: Unknown command: <command>`
with no browser action and no session change. -/
theorem prefixed_tags_case_sensitive (o : BrowserOracle) (st : Session) (cmd : Str)
    (hl : prefixTags.any (fun p => p.isPrefixOf (toLower cmd)) = true)
    (ho : ∀ p ∈ prefixTags, p.isPrefixOf cmd = false) :
    executeCommand o st cmd =
      (Outcome.result ("ERROR: Unknown command: ".data ++ cmd), st) := by
  have extag : ∀ tg ∈ exactTags, ¬(toLower cmd = tg) := by
    intro tg htg heq
    rw [heq] at hl
    fin_cases htg <;> exact absurd hl (by decide)
  have e1 := extag ("screenshot".data) (by simp [exactTags])
  have e2 := extag ("text".data) (by simp [exactTags])
  have e3 := extag ("html".data) (by simp [exactTags])
  have e4 := extag ("url".data) (by simp [exactTags])
  have e5 := extag ("title".data) (by simp [exactTags])
  have e6 := extag ("tables".data) (by simp [exactTags])
  have e7 := extag ("links".data) (by simp [exactTags])
  have e8 := extag ("back".data) (by simp [exactTags])
  have e9 := extag ("forward".data) (by simp [exactTags])
  have e10 := extag ("refresh".data) (by simp [exactTags])
  have e11 := extag ("quit".data) (by simp [exactTags])
  have hg := ho ("goto:".data) (by simp [prefixTags])
  have hc := ho ("click:".data) (by simp [prefixTags])
  have hty := ho ("type:".data) (by simp [prefixTags])
  have hw := ho ("wait:".data) (by simp [prefixTags])
  have hs := ho ("scroll:".data) (by simp [prefixTags])
  have hrec : recognized cmd = false := by
    simp [recognized, e1, e2, e3, e4, e5, e6, e7, e8, e9, e10, e11,
      hg, hc, hty, hw, hs]
  exact exec_of_execTry_ok o st cmd _ (execTry_unknown o st cmd hrec)

/-- Witness for C10 at `GOTO:https://example.com` (upper-case prefixed
tag): no navigation happens; the unknown-command error is returned. -/
theorem prefixed_tags_case_sensitive_witness :
    executeCommand okOracle freshSession ("GOTO:https://example.com".data) =
      (Outcome.result
        ("ERROR: Unknown command: ".data ++ "GOTO:https://example.com".data),
        freshSession) :=
  prefixed_tags_case_sensitive okOracle freshSession
    ("GOTO:https://example.com".data) (by decide)
    (by intro p hp; fin_cases hp <;> decide)

/-- C7.  Frame condition: every dispatch other than `quit` leaves the
running flag unchanged — RUNNING can move to STOPPED only through the
`quit` branch. -/
theorem non_quit_preserves_running (o : BrowserOracle) (st : Session) (cmd : Str)
    (h : toLower cmd ≠ "quit".data) :
    (executeCommand o st cmd).2.running = st.running := by
  rw [exec_running]
  simp [h]

/-- Witness for C7 at the `url` command. -/
theorem non_quit_preserves_running_witness :
    toLower ("url".data) ≠ "quit".data
    ∧ (executeCommand okOracle freshSession ("url".data)).2.running =
      freshSession.running :=
  ⟨by decide, non_quit_preserves_running okOracle freshSession ("url".data) (by decide)⟩

/-- Any command lower-casing to an exact tag takes that tag's branch,
which depends only on the lower-cased text. -/
lemma execTry_exact_reduce (o : BrowserOracle) (st : Session) (cmd : Str)
    (tag : Str) (hmem : tag ∈ exactTags) (h : toLower cmd = tag) :
    execTry o st cmd = execTry o st tag := by
  fin_cases hmem <;>
    (simp only [execTry]
     rw [h]
     simp +decide [toLower, lowerChar, List.isPrefixOf,
       data_screenshot, data_text, data_html, data_url, data_title,
       data_tables, data_links, data_back, data_forward, data_refresh,
       data_quit, data_goto, data_click, data_type, data_wait, data_scroll])

/-- C8.  Exact-tag matching is case-insensitive: a command whose
lower-casing equals one of the eleven exact tags dispatches exactly as
the lowercase tag itself does (the tags take no arguments — the branch
uses nothing but the tag). -/
theorem exact_tags_case_insensitive (o : BrowserOracle) (st : Session)
    (cmd : Str) (tag : Str) (hmem : tag ∈ exactTags) (hlow : toLower cmd = tag) :
    executeCommand o st cmd = executeCommand o st tag := by
  unfold executeCommand
  rw [execTry_exact_reduce o st cmd tag hmem hlow]

/-- Witness for C8: `TITLE` dispatches exactly as `title`. -/
theorem exact_tags_case_insensitive_witness :
    toLower ("TITLE".data) = "title".data
    ∧ executeCommand okOracle freshSession ("TITLE".data) =
      executeCommand okOracle freshSession ("title".data) :=
  ⟨by decide,
    exact_tags_case_insensitive okOracle freshSession ("TITLE".data)
      ("title".data) (by decide) (by decide)⟩

/-- Any command lower-casing to `quit` takes the quit branch. -/
lemma execTry_quit_eq (o : BrowserOracle) (st : Session) (cmd : Str)
    (hq : toLower cmd = "quit".data) :
    execTry o st cmd =
      (if st.hasBrowser then
        simpleAct { st with running := false } Call.closeBrowserC o.browserClose
          (fun _ => Outcome.exited 0)
      else if st.hasContext then
        simpleAct { st with running := false } Call.closeContextC o.contextClose
          (fun _ => Outcome.exited 0)
      else Except.ok (Outcome.exited 0, { st with running := false })) := by
  simp only [execTry]
  rw [hq]
  simp +decide

/-- Counterexample to C3 as stated: a successful `quit` terminates the
process from inside the dispatcher, BEFORE the poll loop can write the
acknowledgment result — the run's event trace ends in `procExit` and
contains no write at all. -/
theorem quit_exits_without_writing_counterexample :
    pollRun okOracle freshSession
        [Poll.content ("quit".data), Poll.content ("title".data)] =
      [Ev.dispatch ("quit".data), Ev.procExit 0]
    ∧ (pollRun okOracle freshSession
        [Poll.content ("quit".data), Poll.content ("title".data)]).all
        (fun e => !(isWrite e)) = true :=
  ⟨by decide, by decide⟩

/-- C3 (amended).  `quit` sets running to false, releases the browser
resource (browser or persistent context) exactly once, and — when the
close succeeds — terminates the process, WITHOUT writing the
acknowledgment result first (`process.exit(0)` runs inside the
dispatcher, so the loop never reaches its result write); after `quit`
no further command is dispatched even if the command file is
rewritten. -/
theorem quit_semantics (o : BrowserOracle) (st : Session) (s : Str)
    (rest : List Poll) (hq : toLower (trim s) = "quit".data) :
    (executeCommand o st (trim s)).2.running = false
    ∧ (st.hasBrowser = true ∨ st.hasContext = true →
        closeCount (executeCommand o st (trim s)).2.calls = closeCount st.calls + 1)
    ∧ ((st.hasBrowser = true → o.browserClose = Except.ok ()) →
        (st.hasBrowser = false → st.hasContext = true → o.contextClose = Except.ok ()) →
        (executeCommand o st (trim s)).1 = Outcome.exited 0)
    ∧ (st.running = true → trim s ≠ st.lastCommand →
        dispatched (pollRun o st (Poll.content s :: rest)) = [trim s]) := by
  have hquit := execTry_quit_eq o st (trim s) hq
  refine ⟨?_, ?_, ?_, ?_⟩
  · rw [exec_running]
    simp [hq]
  · intro hres
    unfold executeCommand
    rw [hquit]
    by_cases hb : st.hasBrowser = true
    · rw [if_pos hb]
      cases hcl : o.browserClose <;>
        simp +decide [simpleAct, act, closeCount, List.filter_append]
    · rw [if_neg hb]
      have hcx : st.hasContext = true := by
        rcases hres with h | h
        · exact absurd h hb
        · exact h
      rw [if_pos hcx]
      cases hcl : o.contextClose <;>
        simp +decide [simpleAct, act, closeCount, List.filter_append]
  · intro hcb hcc
    unfold executeCommand
    rw [hquit]
    by_cases hb : st.hasBrowser = true
    · rw [if_pos hb, hcb hb]
      simp [simpleAct, act]
    · rw [if_neg hb]
      by_cases hcx : st.hasContext = true
      · rw [if_pos hcx, hcc (by simpa using hb) hcx]
        simp [simpleAct, act]
      · rw [if_neg hcx]
  · intro hrun hdiff
    simp only [pollRun]
    rw [if_pos hrun]
    have hne : trim s ≠ [] := by
      intro hnil
      rw [hnil] at hq
      exact absurd hq (by decide)
    rw [if_neg (not_or.mpr ⟨hne, hdiff⟩)]
    rcases hx : executeCommand o { st with lastCommand := trim s } (trim s)
      with ⟨out, st2⟩
    cases out with
    | exited code =>
      dsimp only
      rw [dispatched_cons_dispatch, dispatched_cons_exit, dispatched_nil]
    | result res =>
      dsimp only
      have hstop : st2.running = false := by
        have h2 := exec_running o { st with lastCommand := trim s } (trim s)
        rw [hx] at h2
        simpa [hq] using h2
      rw [dispatched_cons_dispatch, dispatched_cons_write,
        pollRun_not_running o st2 rest hstop, dispatched_nil]

/-- Witness for C3 (amended) at ` QUIT `: running drops to false and
the quit dispatch is the run's only dispatch even though the command
file is rewritten afterwards. -/
theorem quit_semantics_witness :
    (executeCommand okOracle freshSession (trim (" QUIT ".data))).2.running = false
    ∧ dispatched (pollRun okOracle freshSession
        [Poll.content (" QUIT ".data), Poll.content ("title".data)]) =
      [trim (" QUIT ".data)] :=
  ⟨(quit_semantics okOracle freshSession (" QUIT ".data) [] (by decide)).1,
    (quit_semantics okOracle freshSession (" QUIT ".data)
      [Poll.content ("title".data)] (by decide)).2.2.2 (by decide) (by decide)⟩

end WebPilot
